import Mathlib

/-!
Shallow embedding of the predefined-question routing and local-analytics
engine of the NF-e CSV agent (files `agente_csv_novo.py` and
`agente_chat_interface_pro.py`).

Modelling conventions:
* A pandas cell is `Cell`: `null` models `NaN`/missing, `num` models a
  numeric value (floats are modelled by rationals; the claims are about
  exact aggregate arithmetic, not rounding), `str` a string value, and
  `date` a datetime value produced by `pd.to_datetime`.
* A `DataFrame` is a column-name list plus rows; each row is an
  association list from column name to cell, so that `pd.concat` of
  frames with different columns yields `null` for absent columns.
* The registry `self.dataframes` (a Python dict keyed by filename) is an
  insertion-ordered association list; `register` models
  `self.dataframes[filename] = df`, which replaces in place.
* The analytics functions return formatted strings in the source; here
  each distinct outcome is a constructor of `AnalysisResult`, with the
  doc comments mapping constructors to the exact source branches.
-/

namespace NFAgent

/-- A pandas cell: `null` is `NaN`, `num` a numeric value, `str` a string,
`date` a datetime as produced by `pd.to_datetime`. -/
inductive Cell where
  | null : Cell
  | num (q : ℚ) : Cell
  | str (s : String) : Cell
  | date (y m d : Nat) : Cell
deriving DecidableEq

/-- A row of a loaded table: association list from column name to cell. -/
abbrev Row := List (String × Cell)

/-- A pandas DataFrame: column names plus rows. -/
structure DataFrame where
  cols : List String
  rows : List Row
deriving DecidableEq

/-- Reading a cell of a row by column name; absent columns read as `null`,
which models how `pd.concat` fills columns missing from a source frame
with `NaN`. -/
def getCell (r : Row) (c : String) : Cell :=
  match r.lookup c with
  | some v => v
  | none => Cell.null

/-- The registry `self.dataframes`: an insertion-ordered map from filename
to loaded frame (Python dicts preserve insertion order). -/
abbrev Registry := List (String × DataFrame)

/-- The loaded frames, in registry order (`self.dataframes.values()`). -/
def datasets (reg : Registry) : List DataFrame :=
  reg.map Prod.snd

/-- Models `self.dataframes[filename] = df` (`load_file`,
`agente_csv_novo.py` line 99 / `agente_chat_interface_pro.py` line 267):
a dict assignment replaces the value of an existing key in place and
appends a fresh key at the end. -/
def register : Registry → String → DataFrame → Registry
  | [], name, df => [(name, df)]
  | p :: ps, name, df =>
    if p.1 = name then (name, df) :: ps
    else p :: register ps name df

/-- Union of the column lists, keeping first-appearance order: the columns
of `pd.concat(frames)` (default `sort=False`). -/
def unionCols (css : List (List String)) : List String :=
  css.foldl (fun acc cs => acc ++ cs.filter (fun c => decide (c ∉ acc))) []

/-- Models `pd.concat(self.dataframes.values(), ignore_index=True)`: the
row-wise union of all loaded frames, with columns missing from a source
frame filled with `null`. -/
def concatFrames (dfs : List DataFrame) : DataFrame :=
  { cols := unionCols (dfs.map DataFrame.cols)
    rows := (dfs.map DataFrame.rows).flatten }

/-- The cells of column `c` in the union view. -/
def colCells (df : DataFrame) (c : String) : List Cell :=
  df.rows.map (fun r => getCell r c)

/-- Outcome of one local analytics operation.  The source returns
formatted strings; each constructor stands for one source branch:
* `noData` — the `ValueError("Nenhum dado carregado")` raised by
  `_analyze_all_files` (or the `pd.concat` failure on an empty dict in
  the GUI) and caught by the analyzer, yielding its error string;
* `missingColumn role` — the "Coluna(s) ... não encontrada(s)" branch;
* `analysisError` — any other exception caught by the analyzer's
  `except` clause (e.g. a `TypeError` from pandas on non-numeric data);
* `top entries` — the `groupby('fornecedor')['valor'].sum().nlargest(n)`
  series, as ordered (supplier, total) pairs;
* `count n` — the "Total de notas fiscais: n" result;
* `meanNaN` — `mean()` of a column with no numeric values (`NaN`);
* `mean q` — the "Valor médio das notas" result;
* `temporal buckets` — the `resample('M', on='data').size()` series, as
  ordered (month index, row count) pairs. -/
inductive AnalysisResult where
  | noData : AnalysisResult
  | missingColumn (role : String) : AnalysisResult
  | analysisError : AnalysisResult
  | top (entries : List (Cell × ℚ)) : AnalysisResult
  | count (n : Nat) : AnalysisResult
  | meanNaN : AnalysisResult
  | mean (q : ℚ) : AnalysisResult
  | temporal (buckets : List (Nat × Nat)) : AnalysisResult
deriving DecidableEq

/-- Models `_count_invoices` (`agente_csv_novo.py` lines 164-170) and
`count_invoices` (`agente_chat_interface_pro.py` lines 566-572):
`sum(len(df) for df in self.dataframes.values())`, with no emptiness
check of its own. -/
def countInvoicesOp (reg : Registry) : AnalysisResult :=
  AnalysisResult.count ((datasets reg).map (fun df => df.rows.length)).sum

/-! ### Query router

`ask_question` in `agente_csv_novo.py` (lines 197-211) lowercases the
incoming question and compares it for equality against the lowercased
canonical text of each of the five predefined questions; the dict keys
`'1'`..`'5'` are menu indices and are never compared against the
question.  `ask_question` in `agente_chat_interface_pro.py` (lines
463-482) compares the lowercased question against both the short key and
the canonical text of each entry.  In both files the interactive callers
(`_custom_question` / `send_question`) strip the raw input before calling
`ask_question`, so the entry-point behaviour is trim-then-casefold. -/

/-- Python `str.lower` restricted to the Basic Latin and Latin-1 ranges,
which cover every character of the catalog and of the claims'
inputs. -/
def pyLowerChar (c : Char) : Char :=
  if 65 ≤ c.toNat ∧ c.toNat ≤ 90 then Char.ofNat (c.toNat + 32)
  else if 192 ≤ c.toNat ∧ c.toNat ≤ 222 ∧ c.toNat ≠ 215 then Char.ofNat (c.toNat + 32)
  else c

/-- Python `str.lower` on a whole string (restricted to Latin-1). -/
def pyLower (s : String) : String :=
  String.mk (s.data.map pyLowerChar)

/-- Python `str.strip()`: drop leading and trailing whitespace. -/
def pyStrip (s : String) : String :=
  String.mk (((s.data.dropWhile Char.isWhitespace).reverse.dropWhile Char.isWhitespace).reverse)

/-- The five predefined questions of `agente_csv_novo.py`
(`setup_analytics`, lines 47-68): menu index and canonical text. -/
def novoCatalog : List (String × String) :=
  [("1", "Qual é o fornecedor com maior valor total nas notas fiscais?"),
   ("2", "Quantas notas fiscais existem no total?"),
   ("3", "Qual é o valor médio das notas fiscais?"),
   ("4", "Quais são os 3 fornecedores com maior valor total?"),
   ("5", "Qual é a distribuição temporal das notas fiscais?")]

/-- The five predefined questions of `agente_chat_interface_pro.py`
(`setup_analytics`, lines 213-221): short key and canonical text. -/
def proCatalog : List (String × String) :=
  [("Maior Fornecedor", "Qual é o fornecedor com maior valor total nas notas fiscais?"),
   ("Total NFs", "Quantas notas fiscais existem no total?"),
   ("Valor Médio", "Qual é o valor médio das notas fiscais?"),
   ("Top 3 Fornecedores", "Quais são os 3 fornecedores com maior valor total?"),
   ("Distribuição Temporal", "Qual é a distribuição temporal das notas fiscais?")]

/-- The terminal router (`agente_csv_novo.py` lines 203-210): the first
catalog entry whose canonical text equals the question after
case-folding, or `none` (escalate to the remote API). -/
def routeNovo (q : String) : Option Nat :=
  novoCatalog.findIdx? (fun e => pyLower e.2 == pyLower q)

/-- The GUI router (`agente_chat_interface_pro.py` lines 471-475): the
first catalog entry whose short key or canonical text equals the question
after case-folding, or `none` (escalate to the remote API). -/
def routePro (q : String) : Option Nat :=
  proCatalog.findIdx? (fun e => pyLower q == pyLower e.1 || pyLower q == pyLower e.2)

/-- Terminal entry point: `_custom_question` strips the raw input
(line 323) before `ask_question` matches it. -/
def routeNovoEntry (raw : String) : Option Nat :=
  routeNovo (pyStrip raw)

/-- GUI entry point: `send_question` strips the raw input (line 458)
before `ask_question` matches it. -/
def routeProEntry (raw : String) : Option Nat :=
  routePro (pyStrip raw)

/-! ### Local analytics engine

`_analyze_top_suppliers` / `analyze_top_suppliers` compute
`combined_df.groupby('fornecedor')['valor'].sum().nlargest(top_n)`.
Pandas semantics modelled here:
* `groupby` drops rows whose key is `NaN` and sorts the group keys
  ascending (`sort=True` is the default);
* the per-group `sum` skips `NaN` values and returns `0` for a group
  whose values are all `NaN`;
* `nlargest(n)` keeps the `n` largest values; among equal values the
  earlier entries of the (key-sorted) series win (`keep='first'`), i.e.
  it is a stable descending sort followed by `take n`;
* a string anywhere in the `valor` column makes the column object-dtype,
  on which `nlargest` (and `Series.mean`) raise a `TypeError`, caught by
  the analyzer (`analysisError`); likewise sorting a key column that
  mixes numbers and strings raises in Python 3. -/

/-- Whether a cell is a string value. -/
def Cell.isStr : Cell → Bool
  | Cell.str _ => true
  | _ => false

/-- Whether a cell is a numeric value. -/
def Cell.isNum : Cell → Bool
  | Cell.num _ => true
  | _ => false

/-- Numeric content of a cell, if any. -/
def Cell.asNum : Cell → Option ℚ
  | Cell.num q => some q
  | _ => none

/-- Code-point lexicographic comparison of character lists, the string
order Python and pandas use. -/
def charListLt : List Char → List Char → Bool
  | [], [] => false
  | [], _ :: _ => true
  | _ :: _, [] => false
  | c :: cs, d :: ds =>
    if c.toNat < d.toNat then true
    else if d.toNat < c.toNat then false
    else charListLt cs ds

/-- Code-point lexicographic comparison of strings. -/
def strLtb (a b : String) : Bool :=
  charListLt a.data b.data

/-- Strict comparison used when pandas sorts group keys: numbers before
dates before strings, each kind by its own order (pandas never compares
across kinds without raising, which the analyzers guard against via
`mixedKeyTypes`). -/
def Cell.ltb : Cell → Cell → Bool
  | Cell.null, Cell.null => false
  | Cell.null, _ => true
  | Cell.num _, Cell.null => false
  | Cell.num a, Cell.num b => decide (a < b)
  | Cell.num _, _ => true
  | Cell.date _ _ _, Cell.null => false
  | Cell.date _ _ _, Cell.num _ => false
  | Cell.date y m d, Cell.date y2 m2 d2 =>
    decide (y < y2 ∨ (y = y2 ∧ (m < m2 ∨ (m = m2 ∧ d < d2))))
  | Cell.date _ _ _, Cell.str _ => true
  | Cell.str a, Cell.str b => strLtb a b
  | Cell.str _, _ => false

/-- Whether a key-column cell list mixes numeric and string keys (pandas
group-key sorting would raise on such a column). -/
def mixedKeyTypes (ks : List Cell) : Bool :=
  ks.any Cell.isNum && ks.any Cell.isStr

/-- The (supplier, value) cells of a row of the union view. -/
def rowKV (r : Row) : Cell × Cell :=
  (getCell r "fornecedor", getCell r "valor")

/-- The (supplier, value) cell pairs of the union view. -/
def kvPairs (df : DataFrame) : List (Cell × Cell) :=
  df.rows.map rowKV

/-- The non-null supplier keys, in row order (pandas `groupby` drops
`NaN` keys). -/
def collectKeys (pairs : List (Cell × Cell)) : List Cell :=
  pairs.filterMap (fun p => if p.1 = Cell.null then none else some p.1)

/-- Insertion into a strictly-ascending duplicate-free key list. -/
def insertKey (k : Cell) : List Cell → List Cell
  | [] => [k]
  | y :: ys =>
    if k = y then y :: ys
    else if k.ltb y then k :: y :: ys
    else y :: insertKey k ys

/-- The distinct non-null supplier keys, sorted ascending: the index of
the `groupby('fornecedor')` result. -/
def sortedKeys (pairs : List (Cell × Cell)) : List Cell :=
  (collectKeys pairs).foldl (fun acc k => insertKey k acc) []

/-- Numeric contribution of a row to its group sum (`NaN` and non-cell
values contribute nothing, as pandas `sum` skips `NaN`). -/
def rowVal (p : Cell × Cell) : ℚ :=
  match p.2 with
  | Cell.num q => q
  | _ => 0

/-- The summed `valor` of the group of key `k`. -/
def groupSum (pairs : List (Cell × Cell)) (k : Cell) : ℚ :=
  ((pairs.filter (fun p => decide (p.1 = k))).map rowVal).sum

/-- The `groupby('fornecedor')['valor'].sum()` series: key-sorted
(supplier, total) pairs. -/
def supplierGroups (pairs : List (Cell × Cell)) : List (Cell × ℚ) :=
  (sortedKeys pairs).map (fun k => (k, groupSum pairs k))

/-- The sort relation of `Series.nlargest`: larger summed value first. -/
def sumGE (a b : Cell × ℚ) : Prop := b.2 ≤ a.2

instance : DecidableRel sumGE := fun a b => inferInstanceAs (Decidable (b.2 ≤ a.2))

instance : IsTotal (Cell × ℚ) sumGE := ⟨fun a b => (le_total b.2 a.2)⟩

instance : IsTrans (Cell × ℚ) sumGE := ⟨fun _ _ _ h1 h2 => le_trans h2 h1⟩

/-- Models `Series.nlargest(n)` with the default `keep='first'`: a stable
descending sort by value followed by taking the first `n` entries. -/
def nlargest (n : Nat) (l : List (Cell × ℚ)) : List (Cell × ℚ) :=
  (List.insertionSort sumGE l).take n

/-- The strict key order as a proposition. -/
abbrev cellLt (a b : Cell) : Prop := a.ltb b = true

/-- Strictly ascending group keys, lifted to (key, total) pairs. -/
def keyLt (a b : Cell × ℚ) : Prop := cellLt a.1 b.1

/-- The output order of `nlargest`: strictly descending totals, with
ties broken by ascending supplier key (the `groupby` sort order). -/
def nlargestRel (a b : Cell × ℚ) : Prop :=
  b.2 < a.2 ∨ (a.2 = b.2 ∧ cellLt a.1 b.1)

/-- The distinct non-null suppliers of the union view. -/
def distinctSuppliers (df : DataFrame) : List Cell :=
  (collectKeys (kvPairs df)).dedup

/-- The total of the `valor` column of the union view
(`df['valor'].sum()`, which skips `NaN`). -/
def totalValor (df : DataFrame) : ℚ :=
  ((kvPairs df).map rowVal).sum

/-- A registry with the null-supplier rows of each frame removed
(columns untouched). -/
def dropNullSuppliers (reg : Registry) : Registry :=
  reg.map (fun p =>
    (p.1, { cols := p.2.cols
            rows := p.2.rows.filter (fun r => decide (getCell r "fornecedor" ≠ Cell.null)) }))

/-- The top-suppliers aggregation on the already-combined union view. -/
def topSuppliersCore (topN : Nat) (df : DataFrame) : AnalysisResult :=
  if "fornecedor" ∈ df.cols ∧ "valor" ∈ df.cols then
    let pairs := kvPairs df
    if mixedKeyTypes (pairs.map Prod.fst) || (pairs.map Prod.snd).any Cell.isStr then
      AnalysisResult.analysisError
    else
      AnalysisResult.top (nlargest topN (supplierGroups pairs))
  else AnalysisResult.missingColumn "fornecedor/valor"

/-- Models `_analyze_top_suppliers` (`agente_csv_novo.py` lines 152-162)
and `analyze_top_suppliers` (`agente_chat_interface_pro.py` lines
552-564). -/
def analyzeTopSuppliers (topN : Nat) (reg : Registry) : AnalysisResult :=
  if reg.isEmpty then AnalysisResult.noData
  else topSuppliersCore topN (concatFrames (datasets reg))

/-- Models `_calculate_mean_value` (`agente_csv_novo.py` lines 172-182)
and `calculate_mean_value` (`agente_chat_interface_pro.py` lines
574-585): `combined_df['valor'].mean()`, which skips `NaN`, yields `NaN`
on an all-`NaN` column, and raises a `TypeError` (caught, yielding the
"Erro no cálculo" string) when the object-dtype column holds a
string. -/
def meanValueCore (df : DataFrame) : AnalysisResult :=
  if "valor" ∈ df.cols then
    let cells := colCells df "valor"
    if cells.any Cell.isStr then AnalysisResult.analysisError
    else
      let nums := cells.filterMap Cell.asNum
      if nums.isEmpty then AnalysisResult.meanNaN
      else AnalysisResult.mean (nums.sum / (nums.length : ℚ))
  else AnalysisResult.missingColumn "valor"

/-- The registry-level mean operation (empty-registry guard plus
`meanValueCore` on the union view). -/
def calculateMeanValue (reg : Registry) : AnalysisResult :=
  if reg.isEmpty then AnalysisResult.noData
  else meanValueCore (concatFrames (datasets reg))

/-! ### Temporal distribution -/

/-- Days of a calendar month, with leap years. -/
def daysInMonth (y m : Nat) : Nat :=
  if m = 2 then
    if y % 4 = 0 ∧ (y % 100 ≠ 0 ∨ y % 400 = 0) then 29 else 28
  else if m = 4 ∨ m = 6 ∨ m = 9 ∨ m = 11 then 30
  else 31

/-- Splits a character list on the dash character. -/
def splitDash : List Char → List (List Char)
  | [] => [[]]
  | c :: rest =>
    let r := splitDash rest
    if c = '-' then [] :: r
    else
      match r with
      | [] => [[c]]
      | g :: gs => (c :: g) :: gs

/-- Decimal digit parsing of a non-empty all-digit character list. -/
def digitsToNat? (cs : List Char) : Option Nat :=
  if cs.isEmpty then none
  else if cs.all Char.isDigit then
    some (cs.foldl (fun a c => a * 10 + (c.toNat - 48)) 0)
  else none

/-- ISO `YYYY-MM-DD` date parsing, standing in for `pd.to_datetime` on
the date strings the claims exercise; pandas accepts further formats,
which are outside the modelled domain. -/
def parseISODate (s : String) : Option (Nat × Nat × Nat) :=
  match splitDash s.data with
  | [ys, ms, ds] =>
    match digitsToNat? ys, digitsToNat? ms, digitsToNat? ds with
    | some y, some m, some d =>
      if ys.length = 4 ∧ 1 ≤ m ∧ m ≤ 12 ∧ 1 ≤ d ∧ d ≤ daysInMonth y m
      then some (y, m, d) else none
    | _, _, _ => none
  | _ => none

/-- One cell under `pd.to_datetime`: `NaN` becomes `NaT` (`some none`,
silently dropped later), a parseable date string becomes a date, and
anything unparseable raises (`none`); numeric and datetime cells are
outside the modelled domain and conservatively mapped to `none`. -/
def parseDateCell : Cell → Option (Option (Nat × Nat × Nat))
  | Cell.null => some none
  | Cell.str s =>
    match parseISODate s with
    | some d => some (some d)
    | none => none
  | _ => none

/-- `pd.to_datetime` over a whole column with the default
`errors='raise'`: the first unparseable value aborts the conversion. -/
def parseAllDates : List Cell → Option (List (Option (Nat × Nat × Nat)))
  | [] => some []
  | c :: cs =>
    match parseDateCell c, parseAllDates cs with
    | some d, some ds => some (d :: ds)
    | _, _ => none

/-- Month bucket index of a date: `year * 12 + (month - 1)`. -/
def monthIdx (p : Nat × Nat × Nat) : Nat :=
  p.1 * 12 + (p.2.1 - 1)

/-- Models `resample('M', on='data').size()`: one bucket per calendar
month from the earliest to the latest date (empty months count `0`),
in ascending chronological order. -/
def resampleMonthly (dates : List (Nat × Nat × Nat)) : List (Nat × Nat) :=
  match dates with
  | [] => []
  | d :: ds =>
    let idxs := (d :: ds).map monthIdx
    let lo := ds.foldl (fun a e => Nat.min a (monthIdx e)) (monthIdx d)
    let hi := ds.foldl (fun a e => Nat.max a (monthIdx e)) (monthIdx d)
    (List.range (hi + 1 - lo)).map
      (fun i => (lo + i, (idxs.filter (fun j => decide (j = lo + i))).length))

/-- Models `_analyze_temporal_distribution` (`agente_csv_novo.py` lines
184-195) and `analyze_temporal_dist` (`agente_chat_interface_pro.py`
lines 587-600): `pd.to_datetime(combined_df['data'])` followed by
`resample('M', on='data').size()`.  An unparseable date raises inside
`to_datetime` and is caught by the analyzer (`analysisError`); `NaT`
rows are dropped silently by `resample`. -/
def temporalCore (df : DataFrame) : AnalysisResult :=
  if "data" ∈ df.cols then
    match parseAllDates (colCells df "data") with
    | none => AnalysisResult.analysisError
    | some parsed => AnalysisResult.temporal (resampleMonthly (parsed.filterMap id))
  else AnalysisResult.missingColumn "data"

/-- The registry-level temporal operation (empty-registry guard plus
`temporalCore` on the union view). -/
def analyzeTemporalDistribution (reg : Registry) : AnalysisResult :=
  if reg.isEmpty then AnalysisResult.noData
  else temporalCore (concatFrames (datasets reg))

/-- Outcome of `ask_question` in `agente_csv_novo.py`:
`noDataLoaded` is the "❌ Erro: Nenhum dado carregado" early return
(lines 199-200), `answered` a local analysis, `api` the remote
escalation. -/
inductive NovoResponse where
  | noDataLoaded : NovoResponse
  | answered (r : AnalysisResult) : NovoResponse
  | api (q : String) : NovoResponse
deriving DecidableEq

/-- The analyzer bound to the catalog entry at index `idx`
(`setup_analytics`, `agente_csv_novo.py` lines 47-68).  Every analyzer is
invoked as `q['analysis']()`, so `_analyze_top_suppliers` always runs
with its default `top_n = 3`, for entry 1 as well as entry 4. -/
def runNovoAnalyzer (idx : Nat) (reg : Registry) : AnalysisResult :=
  match idx with
  | 0 => analyzeTopSuppliers 3 reg
  | 1 => countInvoicesOp reg
  | 2 => calculateMeanValue reg
  | 3 => analyzeTopSuppliers 3 reg
  | _ => analyzeTemporalDistribution reg

/-- Models `ask_question` (`agente_csv_novo.py` lines 197-211): reject an
empty registry outright, otherwise answer a matching predefined question
locally and escalate everything else to the remote API. -/
def askNovo (reg : Registry) (q : String) : NovoResponse :=
  if reg.isEmpty then NovoResponse.noDataLoaded
  else
    match routeNovo q with
    | some i => NovoResponse.answered (runNovoAnalyzer i reg)
    | none => NovoResponse.api q

/-! ### Heap model of frame mutation

To state the frame/purity claim honestly, the analytics are replayed
over an explicit store of allocated frames: `self.dataframes` maps names
to frame references, `pd.concat` allocates a fresh frame (it copies by
default), and the temporal analyzer's
`combined_df['data'] = pd.to_datetime(...)` writes to the freshly
allocated combined frame only. -/

/-- The store of allocated frames; a frame reference is an index. -/
structure Store where
  frames : List DataFrame
deriving DecidableEq

/-- The process state: the store plus `self.dataframes` as a map from
filename to frame reference. -/
structure SysState where
  store : Store
  registry : List (String × Nat)
deriving DecidableEq

/-- A frame with no columns and no rows. -/
def emptyFrame : DataFrame := { cols := [], rows := [] }

/-- Dereferencing a frame reference. -/
def frameAt (st : Store) (r : Nat) : DataFrame :=
  st.frames.getD r emptyFrame

/-- Allocating a fresh frame; returns the new store and the reference. -/
def alloc (st : Store) (df : DataFrame) : Store × Nat :=
  ({ frames := st.frames ++ [df] }, st.frames.length)

/-- In-place update of the frame at reference `r`. -/
def setFrame (st : Store) (r : Nat) (df : DataFrame) : Store :=
  { frames := st.frames.set r df }

/-- The registered frames of a state, in registry order. -/
def heapDatasets (s : SysState) : List DataFrame :=
  s.registry.map (fun p => frameAt s.store p.2)

/-- Column assignment `df[c] = cells` on a single frame. -/
def setCol (df : DataFrame) (c : String) (cells : List Cell) : DataFrame :=
  { cols := if c ∈ df.cols then df.cols else df.cols ++ [c]
    rows := df.rows.zipWith (fun r v => (c, v) :: r.eraseP (fun p => p.1 == c)) cells }

/-- Heap replay of `_count_invoices`: reads the registered lengths and
touches nothing. -/
def countInvoicesH (s : SysState) : AnalysisResult × SysState :=
  (AnalysisResult.count ((heapDatasets s).map (fun df => df.rows.length)).sum, s)

/-- Heap replay of `_analyze_top_suppliers`: `pd.concat` allocates the
combined frame, the aggregation only reads it. -/
def topSuppliersH (topN : Nat) (s : SysState) : AnalysisResult × SysState :=
  if s.registry.isEmpty then (AnalysisResult.noData, s)
  else
    let combined := concatFrames (heapDatasets s)
    let a := alloc s.store combined
    (topSuppliersCore topN combined, { s with store := a.1 })

/-- Heap replay of `_calculate_mean_value`. -/
def meanValueH (s : SysState) : AnalysisResult × SysState :=
  if s.registry.isEmpty then (AnalysisResult.noData, s)
  else
    let combined := concatFrames (heapDatasets s)
    let a := alloc s.store combined
    (meanValueCore combined, { s with store := a.1 })

/-- Heap replay of `_analyze_temporal_distribution`: after allocating
the combined frame, `combined_df['data'] = pd.to_datetime(...)` writes
the parsed dates back into that fresh frame (and only there); when
`to_datetime` raises, the assignment never happens. -/
def temporalH (s : SysState) : AnalysisResult × SysState :=
  if s.registry.isEmpty then (AnalysisResult.noData, s)
  else
    let combined := concatFrames (heapDatasets s)
    let a := alloc s.store combined
    if "data" ∈ combined.cols then
      match parseAllDates (colCells combined "data") with
      | none => (AnalysisResult.analysisError, { s with store := a.1 })
      | some parsed =>
        let dateCells := parsed.map (fun o =>
          match o with
          | some (y, m, d) => Cell.date y m d
          | none => Cell.null)
        let combined2 := setCol combined "data" dateCells
        (AnalysisResult.temporal (resampleMonthly (parsed.filterMap id)),
          { s with store := setFrame a.1 a.2 combined2 })
    else (AnalysisResult.missingColumn "data", { s with store := a.1 })

/-! ## Concrete fixtures used by counterexamples and witnesses -/

/-- A one-frame, one-reference state used by the purity witness. -/
def sW : SysState :=
  { store := { frames := [{ cols := ["data"], rows := [[("data", Cell.str "2024-01-05")]] }] }
    registry := [("m.csv", 0)] }

/-- A frame whose supplier column lacks the `valor` column entirely. -/
def dfNoValor : DataFrame :=
  { cols := ["fornecedor"], rows := [[("fornecedor", Cell.str "a")]] }

/-- Registry holding only `dfNoValor`. -/
def regNoValor : Registry := [("x.csv", dfNoValor)]

/-- Suppliers `b` and `a` tie at `5`; supplier `c` has a negative total. -/
def dfTie : DataFrame :=
  { cols := ["fornecedor", "valor"],
    rows := [[("fornecedor", Cell.str "b"), ("valor", Cell.num 5)],
             [("fornecedor", Cell.str "a"), ("valor", Cell.num 5)],
             [("fornecedor", Cell.str "c"), ("valor", Cell.num (-100))]] }

/-- Registry holding only `dfTie`. -/
def regTie : Registry := [("f.csv", dfTie)]

/-- A value column holding a number and a string. -/
def dfMixedValor : DataFrame :=
  { cols := ["valor"],
    rows := [[("valor", Cell.num 10)], [("valor", Cell.str "x")]] }

/-- Registry holding only `dfMixedValor`. -/
def regMixedValor : Registry := [("m.csv", dfMixedValor)]

/-- A null-supplier row next to a named supplier. -/
def dfNullSup : DataFrame :=
  { cols := ["fornecedor", "valor"],
    rows := [[("fornecedor", Cell.str "a"), ("valor", Cell.num 5)],
             [("fornecedor", Cell.null), ("valor", Cell.num 7)]] }

/-- Registry holding only `dfNullSup`. -/
def regNullSup : Registry := [("f.csv", dfNullSup)]

/-- The spec's mean example: values 10, 20, 30. -/
def dfMean : DataFrame :=
  { cols := ["valor"],
    rows := [[("valor", Cell.num 10)], [("valor", Cell.num 20)], [("valor", Cell.num 30)]] }

/-- Registry holding only `dfMean`. -/
def regMean : Registry := [("m.csv", dfMean)]

/-- A date column with one parseable and one unparseable entry. -/
def dfBadDate : DataFrame :=
  { cols := ["data"],
    rows := [[("data", Cell.str "2024-01-05")], [("data", Cell.str "garbage")]] }

/-- Registry holding only `dfBadDate`. -/
def regBadDate : Registry := [("t.csv", dfBadDate)]

/-- The spec's temporal example: two January dates and one February
date of 2024. -/
def dfDates : DataFrame :=
  { cols := ["data"],
    rows := [[("data", Cell.str "2024-01-05")], [("data", Cell.str "2024-01-20")],
             [("data", Cell.str "2024-02-01")]] }

/-- Registry holding only `dfDates`. -/
def regDates : Registry := [("t.csv", dfDates)]

/-! ## Order and grouping lemmas -/

/-- Code-point comparison is irreflexive. -/
theorem charListLt_irrefl : ∀ (l : List Char), charListLt l l = false
  | [] => rfl
  | c :: cs => by simp [charListLt, charListLt_irrefl cs]

/-- Code-point comparison is transitive. -/
theorem charListLt_trans : ∀ (a b c : List Char),
    charListLt a b = true → charListLt b c = true → charListLt a c = true
  | [], [], _, h1, _ => by simp [charListLt] at h1
  | [], _ :: _, [], _, h2 => by simp [charListLt] at h2
  | [], _ :: _, _ :: _, _, _ => rfl
  | _ :: _, [], _, h1, _ => by simp [charListLt] at h1
  | _ :: _, _ :: _, [], _, h2 => by simp [charListLt] at h2
  | x :: xs, y :: ys, z :: zs, h1, h2 => by
    simp only [charListLt] at h1 h2 ⊢
    split_ifs at h1 h2 ⊢ <;>
      first
        | rfl
        | omega
        | (exact charListLt_trans xs ys zs h1 h2)

/-- Code-point comparison is total on distinct lists. -/
theorem charListLt_total : ∀ (a b : List Char), a ≠ b →
    charListLt a b = true ∨ charListLt b a = true
  | [], [], h => absurd rfl h
  | [], _ :: _, _ => Or.inl rfl
  | _ :: _, [], _ => Or.inr rfl
  | x :: xs, y :: ys, h => by
    simp only [charListLt]
    by_cases hxy : x.toNat < y.toNat
    · simp [hxy]
    · by_cases hyx : y.toNat < x.toNat
      · simp [hxy, hyx]
      · have hnat : x.toNat = y.toNat := by omega
        have hx : x = y := Char.ext (UInt32.toNat.inj hnat)
        subst hx
        have hxs : xs ≠ ys := fun he => h (by rw [he])
        simpa [hxy] using charListLt_total xs ys hxs

/-- The key order is irreflexive. -/
theorem Cell.ltb_irrefl : ∀ (a : Cell), a.ltb a = false
  | Cell.null => rfl
  | Cell.num q => by simp [Cell.ltb]
  | Cell.str s => by simp [Cell.ltb, strLtb, charListLt_irrefl]
  | Cell.date y m d => by simp [Cell.ltb]

/-- The key order is transitive. -/
theorem Cell.ltb_trans : ∀ {a b c : Cell},
    a.ltb b = true → b.ltb c = true → a.ltb c = true := by
  intro a b c h1 h2
  cases a <;> cases b <;> cases c <;>
    simp only [Cell.ltb, strLtb, decide_eq_true_eq] at h1 h2 ⊢ <;>
    first
      | rfl
      | omega
      | exact lt_trans h1 h2
      | exact charListLt_trans _ _ _ h1 h2
      | simp_all

/-- The key order is total on distinct cells. -/
theorem Cell.ltb_total_ne : ∀ {a b : Cell}, a ≠ b →
    a.ltb b = true ∨ b.ltb a = true
  | Cell.null, Cell.null, h => absurd rfl h
  | Cell.null, Cell.num _, _ => Or.inl rfl
  | Cell.null, Cell.str _, _ => Or.inl rfl
  | Cell.null, Cell.date _ _ _, _ => Or.inl rfl
  | Cell.num _, Cell.null, _ => Or.inr rfl
  | Cell.num a, Cell.num b, h => by
    have hab : a ≠ b := fun he => h (by rw [he])
    rcases lt_or_gt_of_ne hab with hl | hl
    · exact Or.inl (by simp [Cell.ltb, hl])
    · exact Or.inr (by simp [Cell.ltb, hl])
  | Cell.num _, Cell.str _, _ => Or.inl rfl
  | Cell.num _, Cell.date _ _ _, _ => Or.inl rfl
  | Cell.str _, Cell.null, _ => Or.inr rfl
  | Cell.str _, Cell.num _, _ => Or.inr rfl
  | Cell.str a, Cell.str b, h => by
    have hd : a.data ≠ b.data := fun he => h (by rw [String.ext he])
    rcases charListLt_total _ _ hd with hl | hl
    · exact Or.inl (by simp [Cell.ltb, strLtb, hl])
    · exact Or.inr (by simp [Cell.ltb, strLtb, hl])
  | Cell.str _, Cell.date _ _ _, _ => Or.inr rfl
  | Cell.date _ _ _, Cell.null, _ => Or.inr rfl
  | Cell.date _ _ _, Cell.num _, _ => Or.inr rfl
  | Cell.date y m d, Cell.date y2 m2 d2, h => by
    have hne2 : ¬ (y = y2 ∧ m = m2 ∧ d = d2) := by
      rintro ⟨h1, h2, h3⟩
      exact h (by rw [h1, h2, h3])
    simp only [Cell.ltb, decide_eq_true_eq]
    omega
  | Cell.date _ _ _, Cell.str _, _ => Or.inl rfl

/-- Membership in an `insertKey` insertion. -/
theorem mem_insertKey {a k : Cell} : ∀ {l : List Cell},
    a ∈ insertKey k l ↔ a = k ∨ a ∈ l
  | [] => by simp [insertKey]
  | y :: ys => by
    rw [insertKey]
    split_ifs with h1 h2
    · subst h1
      simp only [List.mem_cons]
      tauto
    · simp only [List.mem_cons]
    · simp only [List.mem_cons, mem_insertKey (l := ys)]
      tauto

/-- `insertKey` preserves strict sortedness. -/
theorem pairwise_insertKey {k : Cell} : ∀ {l : List Cell},
    l.Pairwise cellLt → (insertKey k l).Pairwise cellLt
  | [], _ => by simp [insertKey]
  | y :: ys, h => by
    rw [insertKey]
    split_ifs with h1 h2
    · exact h
    · refine List.pairwise_cons.2 ⟨?_, h⟩
      intro z hz
      rcases List.mem_cons.1 hz with rfl | hz2
      · exact h2
      · exact Cell.ltb_trans h2 ((List.pairwise_cons.1 h).1 z hz2)
    · refine List.pairwise_cons.2 ⟨?_, pairwise_insertKey (List.pairwise_cons.1 h).2⟩
      intro z hz
      rcases mem_insertKey.1 hz with rfl | hz2
      · rcases Cell.ltb_total_ne h1 with hlt | hlt
        · exact absurd hlt h2
        · exact hlt
      · exact (List.pairwise_cons.1 h).1 z hz2

/-- Sortedness of the key fold. -/
theorem pairwise_foldl_insertKey : ∀ (ks : List Cell) (acc : List Cell),
    acc.Pairwise cellLt → (ks.foldl (fun a k => insertKey k a) acc).Pairwise cellLt
  | [], _, h => h
  | _ :: ks, _, h => pairwise_foldl_insertKey ks _ (pairwise_insertKey h)

/-- Membership in the key fold. -/
theorem mem_foldl_insertKey {a : Cell} : ∀ (ks : List Cell) (acc : List Cell),
    a ∈ ks.foldl (fun l k => insertKey k l) acc ↔ a ∈ acc ∨ a ∈ ks
  | [], acc => by simp
  | k :: ks, acc => by
    rw [List.foldl_cons, mem_foldl_insertKey ks]
    simp only [mem_insertKey, List.mem_cons]
    tauto

/-- The groupby index is strictly sorted. -/
theorem sortedKeys_pairwise (pairs : List (Cell × Cell)) :
    (sortedKeys pairs).Pairwise cellLt :=
  pairwise_foldl_insertKey _ _ List.Pairwise.nil

/-- The groupby index holds exactly the collected non-null keys. -/
theorem mem_sortedKeys {a : Cell} {pairs : List (Cell × Cell)} :
    a ∈ sortedKeys pairs ↔ a ∈ collectKeys pairs := by
  rw [sortedKeys, mem_foldl_insertKey]
  simp

/-- The groupby index has no duplicates. -/
theorem sortedKeys_nodup (pairs : List (Cell × Cell)) :
    (sortedKeys pairs).Nodup :=
  (sortedKeys_pairwise pairs).imp (fun {a b} h he => by
    subst he
    have h2 : a.ltb a = true := h
    rw [Cell.ltb_irrefl] at h2
    cases h2)

/-- Collected keys are exactly the non-null supplier cells. -/
theorem mem_collectKeys {a : Cell} {pairs : List (Cell × Cell)} :
    a ∈ collectKeys pairs ↔ a ≠ Cell.null ∧ ∃ p ∈ pairs, p.1 = a := by
  rw [collectKeys, List.mem_filterMap]
  constructor
  · rintro ⟨p, hp, hf⟩
    by_cases hn : p.1 = Cell.null
    · simp [hn] at hf
    · simp only [hn, if_false, Option.some.injEq] at hf
      subst hf
      exact ⟨hn, p, hp, rfl⟩
  · rintro ⟨hn, p, hp, rfl⟩
    exact ⟨p, hp, by simp [hn]⟩

/-- The group list inherits the strict key order. -/
theorem supplierGroups_pairwise_keyLt (pairs : List (Cell × Cell)) :
    (supplierGroups pairs).Pairwise keyLt := by
  rw [supplierGroups]
  exact (sortedKeys_pairwise pairs).map _ (fun a b h => h)

/-- Inserting into a value-sorted list keeps the nlargest order, provided
the inserted element ties only with elements it precedes in key
order. -/
theorem pairwise_orderedInsert_stable (x : Cell × ℚ) :
    ∀ (l : List (Cell × ℚ)), l.Sorted sumGE → l.Pairwise nlargestRel →
      (∀ y ∈ l, x.2 = y.2 → cellLt x.1 y.1) →
      (l.orderedInsert sumGE x).Pairwise nlargestRel
  | [], _, _, _ => List.pairwise_singleton ..
  | y :: ys, hs, hp, hx => by
    rw [List.orderedInsert]
    split_ifs with hr
    · refine List.pairwise_cons.2 ⟨?_, hp⟩
      intro z hz
      have hzx : z.2 ≤ x.2 := by
        rcases List.mem_cons.1 hz with rfl | hz2
        · exact hr
        · exact le_trans ((List.pairwise_cons.1 hs).1 z hz2) hr
      rcases lt_or_eq_of_le hzx with hlt | heq
      · exact Or.inl hlt
      · exact Or.inr ⟨heq.symm, hx z hz heq.symm⟩
    · refine List.pairwise_cons.2
        ⟨?_, pairwise_orderedInsert_stable x ys hs.of_cons hp.of_cons ?_⟩
      · intro z hz
        rcases (List.mem_orderedInsert _).1 hz with rfl | hz2
        · exact Or.inl (lt_of_not_le hr)
        · exact (List.pairwise_cons.1 hp).1 z hz2
      · intro z hz heq
        exact hx z (List.mem_cons_of_mem y hz) heq

/-- The stable descending sort of a list with strictly ascending keys is
ordered by descending value with ties in ascending key order. -/
theorem pairwise_insertionSort_stable :
    ∀ (l : List (Cell × ℚ)), l.Pairwise keyLt →
      (List.insertionSort sumGE l).Pairwise nlargestRel
  | [], _ => List.Pairwise.nil
  | x :: xs, h => by
    rw [List.insertionSort]
    refine pairwise_orderedInsert_stable x _ (List.sorted_insertionSort sumGE xs)
      (pairwise_insertionSort_stable xs (List.pairwise_cons.1 h).2) ?_
    intro y hy _
    exact (List.pairwise_cons.1 h).1 y ((List.mem_insertionSort sumGE).1 hy)

/-- Splitting off one row of a group sum. -/
theorem groupSum_cons (p : Cell × Cell) (ps : List (Cell × Cell)) (k : Cell) :
    groupSum (p :: ps) k = (if p.1 = k then rowVal p else 0) + groupSum ps k := by
  rw [groupSum, groupSum, List.filter_cons]
  by_cases h : p.1 = k
  · simp [h]
  · simp [h]

/-- Summing an indicator over a duplicate-free list. -/
theorem sum_map_ite_eq (v : ℚ) : ∀ (ks : List Cell) (a : Cell), ks.Nodup →
    (ks.map (fun k => if a = k then v else 0)).sum = if a ∈ ks then v else 0
  | [], a, _ => by simp
  | y :: ys, a, hnd => by
    rw [List.map_cons, List.sum_cons, sum_map_ite_eq v ys a hnd.of_cons]
    by_cases h : a = y
    · subst h
      simp [(List.nodup_cons.1 hnd).1]
    · simp [h, List.mem_cons]

/-- Sums over pointwise-added functions split. -/
theorem sum_map_add (f g : Cell → ℚ) : ∀ (ks : List Cell),
    (ks.map (fun k => f k + g k)).sum = (ks.map f).sum + (ks.map g).sum
  | [] => by simp
  | y :: ys => by
    rw [List.map_cons, List.sum_cons, sum_map_add f g ys]
    simp [List.map_cons, List.sum_cons]
    ring

/-- Partition identity: summing the per-key group sums over a
duplicate-free key list equals summing the rows whose key is in the
list. -/
theorem sum_groupSum (ks : List Cell) (hnd : ks.Nodup) :
    ∀ (pairs : List (Cell × Cell)),
      (ks.map (fun k => groupSum pairs k)).sum
        = ((pairs.filter (fun p => decide (p.1 ∈ ks))).map rowVal).sum
  | [] => by
    have : ∀ k, groupSum ([] : List (Cell × Cell)) k = 0 := fun k => by
      simp [groupSum]
    simp [this]
  | p :: ps => by
    simp only [groupSum_cons]
    rw [sum_map_add, sum_map_ite_eq _ ks _ hnd, sum_groupSum ks hnd ps, List.filter_cons]
    by_cases h : p.1 ∈ ks
    · simp [h]
    · simp [h]

/-- The group totals sum to the `valor` total of the non-null-supplier
rows. -/
theorem sum_supplierGroups (pairs : List (Cell × Cell)) :
    ((supplierGroups pairs).map Prod.snd).sum
      = ((pairs.filter (fun p => decide (p.1 ≠ Cell.null))).map rowVal).sum := by
  rw [supplierGroups, List.map_map]
  have h2 : pairs.filter (fun p => decide (p.1 ∈ sortedKeys pairs))
      = pairs.filter (fun p => decide (p.1 ≠ Cell.null)) := by
    apply List.filter_congr
    intro p hp
    simp only [decide_eq_decide]
    rw [mem_sortedKeys, mem_collectKeys]
    constructor
    · rintro ⟨hn, _⟩
      exact hn
    · intro hn
      exact ⟨hn, p, hp, rfl⟩
  have h0 : ((sortedKeys pairs).map (Prod.snd ∘ fun k => (k, groupSum pairs k))).sum
      = ((sortedKeys pairs).map (fun k => groupSum pairs k)).sum := rfl
  rw [h0, sum_groupSum _ (sortedKeys_nodup pairs) pairs, h2]

/-- A sum of pointwise non-negative images is non-negative. -/
theorem sum_map_nonneg {α : Type} (f : α → ℚ) : ∀ (l : List α),
    (∀ x ∈ l, 0 ≤ f x) → 0 ≤ (l.map f).sum
  | [], _ => le_refl 0
  | x :: xs, h => by
    rw [List.map_cons, List.sum_cons]
    have h1 := sum_map_nonneg f xs (fun y hy => h y (List.mem_cons_of_mem x hy))
    have h2 := h x (List.mem_cons_self x xs)
    linarith

/-- Filtering can only shrink a sum of non-negative terms. -/
theorem sum_map_filter_le {α : Type} (f : α → ℚ) (q : α → Bool) :
    ∀ (l : List α), (∀ x ∈ l, 0 ≤ f x) →
      ((l.filter q).map f).sum ≤ (l.map f).sum
  | [], _ => le_refl 0
  | x :: xs, h => by
    have ih := sum_map_filter_le f q xs (fun y hy => h y (List.mem_cons_of_mem x hy))
    have h2 := h x (List.mem_cons_self x xs)
    rw [List.filter_cons]
    by_cases hq : q x
    · rw [if_pos hq, List.map_cons, List.sum_cons, List.map_cons, List.sum_cons]
      linarith
    · rw [if_neg hq, List.map_cons, List.sum_cons]
      linarith

/-- A prefix can only shrink a sum of non-negative terms. -/
theorem sum_map_take_le (l : List (Cell × ℚ)) (n : Nat)
    (h : ∀ p ∈ l, 0 ≤ p.2) :
    ((l.take n).map Prod.snd).sum ≤ (l.map Prod.snd).sum := by
  conv_rhs => rw [← List.take_append_drop n l]
  rw [List.map_append, List.sum_append]
  have h1 : 0 ≤ ((l.drop n).map Prod.snd).sum :=
    sum_map_nonneg _ _ (fun p hp => h p (List.drop_subset n l hp))
  linarith

/-- The groupby index is as long as the list of distinct non-null
suppliers. -/
theorem sortedKeys_length_eq_dedup (pairs : List (Cell × Cell)) :
    (sortedKeys pairs).length = (collectKeys pairs).dedup.length := by
  have hperm : List.Perm (sortedKeys pairs) ((collectKeys pairs).dedup) := by
    apply (List.perm_ext_iff_of_nodup (sortedKeys_nodup pairs) (List.nodup_dedup _)).2
    intro a
    rw [mem_sortedKeys, List.mem_dedup]
  exact hperm.length_eq

/-- With string-or-null suppliers and numeric-or-null values, neither
pandas type guard fires. -/
theorem typed_guard_false {pairs : List (Cell × Cell)}
    (hkeys : ∀ c ∈ pairs.map Prod.fst, c = Cell.null ∨ c.isStr = true)
    (hvals : ∀ c ∈ pairs.map Prod.snd, c = Cell.null ∨ c.isNum = true) :
    (mixedKeyTypes (pairs.map Prod.fst) || (pairs.map Prod.snd).any Cell.isStr) = false := by
  rw [Bool.or_eq_false_iff]
  constructor
  · rw [mixedKeyTypes, Bool.and_eq_false_iff]
    left
    rw [List.any_eq_false]
    intro c hc
    rcases hkeys c hc with rfl | hstr
    · simp [Cell.isNum]
    · cases c <;> simp_all [Cell.isNum, Cell.isStr]
  · rw [List.any_eq_false]
    intro c hc
    rcases hvals c hc with rfl | hnum
    · simp [Cell.isStr]
    · cases c <;> simp_all [Cell.isNum, Cell.isStr]

/-- Group sums of non-negative rows are non-negative. -/
theorem groupSum_nonneg (pairs : List (Cell × Cell))
    (h : ∀ p ∈ pairs, 0 ≤ rowVal p) (k : Cell) : 0 ≤ groupSum pairs k :=
  sum_map_nonneg rowVal _ (fun p hp => h p (List.mem_of_mem_filter hp))

/-- Unfolding one step of key collection. -/
theorem collectKeys_cons (p : Cell × Cell) (ps : List (Cell × Cell)) :
    collectKeys (p :: ps)
      = if p.1 = Cell.null then collectKeys ps else p.1 :: collectKeys ps := by
  rw [collectKeys, List.filterMap_cons]
  by_cases h : p.1 = Cell.null
  · simp only [h, if_pos rfl]
    rfl
  · simp only [h, if_neg h]
    rfl

/-- Null-supplier rows contribute no group key. -/
theorem collectKeys_filter (pairs : List (Cell × Cell)) :
    collectKeys (pairs.filter (fun p => decide (p.1 ≠ Cell.null))) = collectKeys pairs := by
  induction pairs with
  | nil => rfl
  | cons p ps ih =>
    rw [List.filter_cons]
    by_cases h : p.1 = Cell.null
    · rw [if_neg (by simp [h]), ih, collectKeys_cons, if_pos h]
    · rw [if_pos (by simp [h]), collectKeys_cons, if_neg h, ih, collectKeys_cons, if_neg h]

/-- Null-supplier rows contribute to no group sum. -/
theorem groupSum_filter_nonnull (pairs : List (Cell × Cell)) (k : Cell)
    (hk : k ≠ Cell.null) :
    groupSum (pairs.filter (fun p => decide (p.1 ≠ Cell.null))) k = groupSum pairs k := by
  have hfil : pairs.filter (fun a => decide (a.1 = k) && decide (a.1 ≠ Cell.null))
      = pairs.filter (fun a => decide (a.1 = k)) := by
    apply List.filter_congr
    intro p _
    by_cases h : p.1 = k
    · subst h
      simp [hk]
    · simp [h]
  rw [groupSum, groupSum, List.filter_filter, hfil]

/-- Dropping the null-supplier rows leaves the groupby result
unchanged. -/
theorem supplierGroups_filter_nonnull (pairs : List (Cell × Cell)) :
    supplierGroups (pairs.filter (fun p => decide (p.1 ≠ Cell.null)))
      = supplierGroups pairs := by
  rw [supplierGroups, supplierGroups, sortedKeys, sortedKeys, collectKeys_filter]
  apply List.map_congr_left
  intro k hk
  have hk2 : k ∈ sortedKeys pairs := hk
  have hkn : k ≠ Cell.null := (mem_collectKeys.1 (mem_sortedKeys.1 hk2)).1
  rw [groupSum_filter_nonnull pairs k hkn]

/-- The union view of the null-supplier-filtered registry has the same
columns. -/
theorem cols_dropNullSuppliers (reg : Registry) :
    (concatFrames (datasets (dropNullSuppliers reg))).cols
      = (concatFrames (datasets reg)).cols := by
  rw [concatFrames, concatFrames]
  simp only [datasets, dropNullSuppliers, List.map_map]
  rfl

/-- The (supplier, value) pairs of the filtered registry are the
non-null-supplier pairs of the original. -/
theorem kvPairs_dropNullSuppliers (reg : Registry) :
    kvPairs (concatFrames (datasets (dropNullSuppliers reg)))
      = (kvPairs (concatFrames (datasets reg))).filter
          (fun p => decide (p.1 ≠ Cell.null)) := by
  rw [kvPairs, kvPairs, List.filter_map, concatFrames, concatFrames]
  simp only [datasets, dropNullSuppliers, List.map_map, List.filter_flatten]
  rfl

/-! ## Claims -/

/-- C1, counterexample.  The claim states that a question equal to a
cataloged question's short key routes to a local analyzer.  In the
terminal application, `"1"` is the short key of the first catalog entry,
yet the router leaves it unmatched (it escalates to the remote API):
`ask_question` only compares against canonical texts. -/
theorem C1_counterexample :
    "1" ∈ novoCatalog.map Prod.fst ∧ routeNovoEntry "1" = none :=
  ⟨by decide, by decide⟩

/-- C1, amended.  For every question string, the GUI router matches
locally exactly when the trimmed, case-folded question equals a catalog
entry's short key or canonical text; the terminal router matches locally
exactly when it equals a canonical text (its short keys are menu indices
only); every other string is left for the remote API.  Matching is exact
equality after trimming and case-folding: no fuzzy or substring
matching. -/
theorem C1_router_exact_match (q : String) :
    ((routeNovoEntry q).isSome = true ↔
      pyLower (pyStrip q) ∈ novoCatalog.map (fun e => pyLower e.2)) ∧
    ((routeProEntry q).isSome = true ↔
      pyLower (pyStrip q) ∈ proCatalog.map (fun e => pyLower e.1) ∨
      pyLower (pyStrip q) ∈ proCatalog.map (fun e => pyLower e.2)) := by
  constructor
  · rw [routeNovoEntry, routeNovo, List.findIdx?_isSome, List.any_eq_true]
    simp only [beq_iff_eq, List.mem_map]
  · rw [routeProEntry, routePro, List.findIdx?_isSome, List.any_eq_true]
    simp only [beq_iff_eq, List.mem_map, Bool.or_eq_true]
    constructor
    · rintro ⟨e, he, h | h⟩
      · exact Or.inl ⟨e, he, h.symm⟩
      · exact Or.inr ⟨e, he, h.symm⟩
    · rintro (⟨e, he, h⟩ | ⟨e, he, h⟩)
      · exact ⟨e, he, Or.inl h.symm⟩
      · exact ⟨e, he, Or.inr h.symm⟩

/-- C1, witness: the canonical count question (case-permuted, padded)
matches in the terminal router, and a short key matches in the GUI
router. -/
theorem C1_router_exact_match_witness :
    (routeNovoEntry "  QUANTAS NOTAS FISCAIS EXISTEM NO TOTAL? ").isSome = true ∧
    (routeProEntry " total nfs").isSome = true :=
  ⟨(C1_router_exact_match "  QUANTAS NOTAS FISCAIS EXISTEM NO TOTAL? ").1.mpr (by decide),
   (C1_router_exact_match " total nfs").2.mpr (Or.inl (by decide))⟩

/-- C2, counterexample.  Suppliers `b` and `a` (in that row order) tie
at `5`, and supplier `c` holds `-100`.  `topSuppliers 2` returns `a`
before `b` — the tie is broken by the ascending key order that pandas
`groupby(sort=True)` imposes, not by first encounter (`b` appears
first in the data) — and the two returned totals sum to `10`, which
exceeds the column total `-90`. -/
theorem C2_counterexample :
    analyzeTopSuppliers 2 regTie
      = AnalysisResult.top [(Cell.str "a", 5), (Cell.str "b", 5)] ∧
    (kvPairs (concatFrames (datasets regTie))).map Prod.fst
      = [Cell.str "b", Cell.str "a", Cell.str "c"] ∧
    totalValor (concatFrames (datasets regTie)) = -90 ∧
    ¬ ((5 : ℚ) + 5 ≤ -90) := by
  have hpairs : kvPairs (concatFrames (datasets regTie))
      = [(Cell.str "b", Cell.num 5), (Cell.str "a", Cell.num 5),
         (Cell.str "c", Cell.num (-100))] := by decide
  have hkeys : sortedKeys (kvPairs (concatFrames (datasets regTie)))
      = [Cell.str "a", Cell.str "b", Cell.str "c"] := by decide
  have hga : groupSum (kvPairs (concatFrames (datasets regTie))) (Cell.str "a") = 5 := by
    rw [hpairs]
    simp +decide [groupSum, List.filter_cons, rowVal]
  have hgb : groupSum (kvPairs (concatFrames (datasets regTie))) (Cell.str "b") = 5 := by
    rw [hpairs]
    simp +decide [groupSum, List.filter_cons, rowVal]
  have hgc : groupSum (kvPairs (concatFrames (datasets regTie))) (Cell.str "c") = -100 := by
    rw [hpairs]
    simp +decide [groupSum, List.filter_cons, rowVal]
  have hgroups : supplierGroups (kvPairs (concatFrames (datasets regTie)))
      = [(Cell.str "a", 5), (Cell.str "b", 5), (Cell.str "c", -100)] := by
    rw [supplierGroups, hkeys]
    simp [hga, hgb, hgc]
  have hsorted : List.insertionSort sumGE
        [(Cell.str "a", (5 : ℚ)), (Cell.str "b", 5), (Cell.str "c", -100)]
      = [(Cell.str "a", 5), (Cell.str "b", 5), (Cell.str "c", -100)] := by decide
  have htotal : totalValor (concatFrames (datasets regTie)) = -90 := by
    rw [totalValor, hpairs]
    simp [rowVal]
    norm_num
  refine ⟨?_, by decide, htotal, by norm_num⟩
  rw [analyzeTopSuppliers, if_neg (by decide), topSuppliersCore, if_pos (by decide),
    if_neg (by decide), hgroups, nlargest, hsorted]
  decide

/-- C2, amended.  For every non-empty registry whose union view has the
supplier and value columns (suppliers string-or-null, values
numeric-or-null), `topSuppliers n` returns exactly
`min n (number of distinct non-null suppliers)` entries, ordered by
strictly descending summed value with ties broken by ascending supplier
key (pandas `groupby` sorts the group keys; first-encounter order plays
no role), and — when every value is non-negative — the sum of the
returned totals does not exceed the total of the value column. -/
theorem C2_top_suppliers (n : Nat) (reg : Registry)
    (hne : reg ≠ [])
    (hcols : "fornecedor" ∈ (concatFrames (datasets reg)).cols ∧
             "valor" ∈ (concatFrames (datasets reg)).cols)
    (hkeys : ∀ c ∈ (kvPairs (concatFrames (datasets reg))).map Prod.fst,
      c = Cell.null ∨ c.isStr = true)
    (hvals : ∀ c ∈ (kvPairs (concatFrames (datasets reg))).map Prod.snd,
      c = Cell.null ∨ c.isNum = true) :
    ∃ entries,
      analyzeTopSuppliers n reg = AnalysisResult.top entries ∧
      entries.length
        = Nat.min n (distinctSuppliers (concatFrames (datasets reg))).length ∧
      entries.Pairwise nlargestRel ∧
      ((∀ p ∈ kvPairs (concatFrames (datasets reg)), 0 ≤ rowVal p) →
        (entries.map Prod.snd).sum ≤ totalValor (concatFrames (datasets reg))) := by
  have hempty : reg.isEmpty = false := by
    cases reg with
    | nil => exact absurd rfl hne
    | cons p ps => rfl
  have hguard := typed_guard_false hkeys hvals
  have hres : analyzeTopSuppliers n reg
      = AnalysisResult.top (nlargest n (supplierGroups (kvPairs (concatFrames (datasets reg))))) := by
    rw [analyzeTopSuppliers, hempty]
    simp only [Bool.false_eq_true, if_false]
    rw [topSuppliersCore, if_pos hcols,
      if_neg (by rw [hguard]; exact Bool.false_ne_true)]
  refine ⟨nlargest n (supplierGroups (kvPairs (concatFrames (datasets reg)))), hres, ?_, ?_, ?_⟩
  · rw [nlargest, List.length_take, List.length_insertionSort, supplierGroups,
      List.length_map, distinctSuppliers, sortedKeys_length_eq_dedup]
  · exact List.Pairwise.sublist (List.take_sublist _ _)
      (pairwise_insertionSort_stable _
        (supplierGroups_pairwise_keyLt (kvPairs (concatFrames (datasets reg)))))
  · intro hnn
    have hmem : ∀ p ∈ List.insertionSort sumGE
        (supplierGroups (kvPairs (concatFrames (datasets reg)))), 0 ≤ p.2 := by
      intro p hp
      have hp2 : p ∈ supplierGroups (kvPairs (concatFrames (datasets reg))) :=
        (List.mem_insertionSort _).1 hp
      rcases List.mem_map.1 hp2 with ⟨k, _, rfl⟩
      exact groupSum_nonneg _ hnn k
    calc ((nlargest n (supplierGroups (kvPairs (concatFrames (datasets reg))))).map Prod.snd).sum
        ≤ ((List.insertionSort sumGE
            (supplierGroups (kvPairs (concatFrames (datasets reg))))).map Prod.snd).sum :=
          sum_map_take_le _ n hmem
      _ = ((supplierGroups (kvPairs (concatFrames (datasets reg)))).map Prod.snd).sum :=
          ((List.perm_insertionSort sumGE _).map Prod.snd).sum_eq
      _ = (((kvPairs (concatFrames (datasets reg))).filter
            (fun p => decide (p.1 ≠ Cell.null))).map rowVal).sum :=
          sum_supplierGroups _
      _ ≤ ((kvPairs (concatFrames (datasets reg))).map rowVal).sum :=
          sum_map_filter_le rowVal _ _ hnn
      _ = totalValor (concatFrames (datasets reg)) := rfl

/-- C2, witness: on the tie registry, `topSuppliers 2` produces exactly
two entries (the minimum of 2 and the three distinct suppliers). -/
theorem C2_top_suppliers_witness :
    ∃ entries, analyzeTopSuppliers 2 regTie = AnalysisResult.top entries ∧
      entries.length = 2 := by
  obtain ⟨e, he, hlen, _, _⟩ :=
    C2_top_suppliers 2 regTie (by decide) (by decide) (by decide) (by decide)
  refine ⟨e, he, ?_⟩
  rw [hlen]
  decide

/-- C3: `countInvoices` always returns the plain sum of the per-dataset
row counts, which equals the row count of the union view — duplicate
rows across datasets are all counted, and the operation never fails. -/
theorem C3_count_invoices (reg : Registry) :
    countInvoicesOp reg =
      AnalysisResult.count ((concatFrames (datasets reg)).rows.length) := by
  simp only [countInvoicesOp, concatFrames, List.length_flatten, List.map_map]
  rfl

/-- C6, counterexample.  The claim states every local analytics
operation returns `NoDataError` on an empty registry; `count_invoices`
invoked directly instead returns a successful count of `0`
(`sum(len(df) for df in self.dataframes.values())` over an empty dict,
with no emptiness guard in the function itself). -/
theorem C6_counterexample :
    countInvoicesOp ([] : Registry) = AnalysisResult.count 0 ∧
    AnalysisResult.count 0 ≠ AnalysisResult.noData :=
  ⟨rfl, by decide⟩

/-- C6, amended: on an empty registry, `topSuppliers`, `meanValue` and
`temporalDistribution` return the no-data error; `countInvoices` invoked
directly returns a count of `0`; the question entry point
(`ask_question`) rejects an empty registry before dispatching any
analyzer, so every operation reached through it yields the no-data
error. -/
theorem C6_empty_registry (n : Nat) (q : String) :
    analyzeTopSuppliers n ([] : Registry) = AnalysisResult.noData ∧
    calculateMeanValue ([] : Registry) = AnalysisResult.noData ∧
    analyzeTemporalDistribution ([] : Registry) = AnalysisResult.noData ∧
    countInvoicesOp ([] : Registry) = AnalysisResult.count 0 ∧
    askNovo ([] : Registry) q = NovoResponse.noDataLoaded :=
  ⟨rfl, rfl, rfl, rfl, rfl⟩

/-- C7: when the union view of a non-empty registry has no column
matching any `value` alias (`valor`, `VALOR NOTA FISCAL`), `meanValue`
returns the missing-column result naming the value role, never a numeric
result. -/
theorem C7_missing_value_column (reg : Registry)
    (hne : reg ≠ [])
    (hv : "valor" ∉ (concatFrames (datasets reg)).cols)
    (hV : "VALOR NOTA FISCAL" ∉ (concatFrames (datasets reg)).cols) :
    calculateMeanValue reg = AnalysisResult.missingColumn "valor" ∧
    ∀ q : ℚ, calculateMeanValue reg ≠ AnalysisResult.mean q := by
  have hempty : reg.isEmpty = false := by
    cases reg with
    | nil => exact absurd rfl hne
    | cons p ps => rfl
  have h1 : calculateMeanValue reg = AnalysisResult.missingColumn "valor" := by
    rw [calculateMeanValue, hempty]
    simp only [Bool.false_eq_true, if_false]
    rw [meanValueCore, if_neg hv]
  exact ⟨h1, fun q hq => by rw [h1] at hq; exact absurd hq (by simp)⟩

/-- C7, witness: a registry holding one frame with only a supplier
column. -/
theorem C7_missing_value_column_witness :
    calculateMeanValue regNoValor = AnalysisResult.missingColumn "valor" :=
  (C7_missing_value_column regNoValor (by decide) (by decide) (by decide)).1

/-- C4, counterexample.  The claim states non-numeric values are
excluded from both numerator and denominator, which on the column
`[10, "x"]` would give a mean of `10`.  The code instead returns the
caught-error result: `Series.mean` raises a `TypeError` on an
object-dtype column holding a string. -/
theorem C4_counterexample :
    calculateMeanValue regMixedValor = AnalysisResult.analysisError ∧
    AnalysisResult.analysisError ≠ AnalysisResult.mean 10 :=
  ⟨by decide, by decide⟩

/-- C4, amended: on a non-empty registry whose union view has the
`valor` column, `meanValue` returns the arithmetic mean over the numeric
values of the column, with null values excluded from both numerator and
denominator; a non-numeric (string) value anywhere in the column causes
an error result (the pandas mean raises and is caught), not a silent
exclusion. -/
theorem C4_mean_value (reg : Registry)
    (hne : reg ≠ [])
    (hv : "valor" ∈ (concatFrames (datasets reg)).cols) :
    (((colCells (concatFrames (datasets reg)) "valor").any Cell.isStr = false) →
      ((colCells (concatFrames (datasets reg)) "valor").filterMap Cell.asNum ≠ []) →
      calculateMeanValue reg =
        AnalysisResult.mean
          (((colCells (concatFrames (datasets reg)) "valor").filterMap Cell.asNum).sum /
            ((((colCells (concatFrames (datasets reg)) "valor").filterMap Cell.asNum).length : ℚ)))) ∧
    (((colCells (concatFrames (datasets reg)) "valor").any Cell.isStr = true) →
      calculateMeanValue reg = AnalysisResult.analysisError) := by
  have hempty : reg.isEmpty = false := by
    cases reg with
    | nil => exact absurd rfl hne
    | cons p ps => rfl
  constructor
  · intro hstr hnums
    rw [calculateMeanValue, hempty]
    simp only [Bool.false_eq_true, if_false]
    rw [meanValueCore, if_pos hv, if_neg (by simp [hstr]),
      if_neg (by simp [List.isEmpty_iff, hnums])]
  · intro hstr
    rw [calculateMeanValue, hempty]
    simp only [Bool.false_eq_true, if_false]
    rw [meanValueCore, if_pos hv, if_pos (by simp [hstr])]

/-- C4, witness: the spec's own example, values 10, 20, 30 give a mean
of 20. -/
theorem C4_mean_value_witness :
    calculateMeanValue regMean = AnalysisResult.mean 20 := by
  have h := (C4_mean_value regMean (by decide) (by decide)).1 (by decide) (by decide)
  have hl : (colCells (concatFrames (datasets regMean)) "valor").filterMap Cell.asNum
      = [10, 20, 30] := by decide
  rw [hl] at h
  rw [h]
  simp only [AnalysisResult.mean.injEq, List.sum_cons, List.sum_nil, List.length_cons,
    List.length_nil]
  norm_num

/-- The bucket keys produced by `resampleMonthly` are strictly
ascending month indices. -/
theorem resampleMonthly_sorted (dates : List (Nat × Nat × Nat)) :
    ((resampleMonthly dates).map Prod.fst).Pairwise (· < ·) := by
  cases dates with
  | nil => simp [resampleMonthly]
  | cons d ds =>
    rw [resampleMonthly]
    simp only [List.map_map]
    exact (List.pairwise_lt_range _).map _ (fun a b hab => by simpa using hab)

/-- C5, counterexample.  The claim states unparseable dates are excluded
with a dropped-row count surfaced as a warning; on the column
`["2024-01-05", "garbage"]` that would give the January 2024 bucket with
one row and a dropped count of 1.  The code instead aborts:
`pd.to_datetime` runs with `errors='raise'`, so the analyzer returns the
caught-error result and no buckets at all. -/
theorem C5_counterexample :
    analyzeTemporalDistribution regBadDate = AnalysisResult.analysisError ∧
    AnalysisResult.analysisError ≠ AnalysisResult.temporal [(24288, 1)] :=
  ⟨by decide, by decide⟩

/-- C5, amended: on a non-empty registry whose union view has the `data`
column, an unparseable date value causes the whole operation to return
an error result (the `pd.to_datetime` call raises and is caught) — no
rows are excluded and no drop count is reported; when every non-null
date parses, null dates are dropped silently and the rows are bucketed
by calendar month, in ascending chronological order. -/
theorem C5_temporal_distribution (reg : Registry)
    (hne : reg ≠ [])
    (hd : "data" ∈ (concatFrames (datasets reg)).cols) :
    (∀ parsed, parseAllDates (colCells (concatFrames (datasets reg)) "data") = some parsed →
      analyzeTemporalDistribution reg =
        AnalysisResult.temporal (resampleMonthly (parsed.filterMap id)) ∧
      ((resampleMonthly (parsed.filterMap id)).map Prod.fst).Pairwise (· < ·)) ∧
    (parseAllDates (colCells (concatFrames (datasets reg)) "data") = none →
      analyzeTemporalDistribution reg = AnalysisResult.analysisError) := by
  have hempty : reg.isEmpty = false := by
    cases reg with
    | nil => exact absurd rfl hne
    | cons p ps => rfl
  constructor
  · intro parsed hparsed
    refine ⟨?_, resampleMonthly_sorted _⟩
    rw [analyzeTemporalDistribution, hempty]
    simp only [Bool.false_eq_true, if_false]
    rw [temporalCore, if_pos hd, hparsed]
  · intro hfail
    rw [analyzeTemporalDistribution, hempty]
    simp only [Bool.false_eq_true, if_false]
    rw [temporalCore, if_pos hd, hfail]

/-- C5, witness: the spec's example dates — 2024-01-05 and 2024-01-20
share the January 2024 bucket and 2024-02-01 lands in the strictly later
February 2024 bucket. -/
theorem C5_temporal_distribution_witness :
    analyzeTemporalDistribution regDates = AnalysisResult.temporal [(24288, 2), (24289, 1)] := by
  have h := ((C5_temporal_distribution regDates (by decide) (by decide)).1
    [some (2024, 1, 5), some (2024, 1, 20), some (2024, 2, 1)] (by decide)).1
  rw [h]
  decide

/-- Registering under an existing name replaces in place, so registering
twice is the same as registering once. -/
theorem register_register (reg : Registry) (name : String) (df : DataFrame) :
    register (register reg name df) name df = register reg name df := by
  induction reg with
  | nil => simp [register]
  | cons p ps ih =>
    by_cases h : p.1 = name
    · simp [register, h]
    · simp [register, h, ih]

/-- C9: registration is a replace, not an accumulate — re-registering
the same dataset under the same name leaves `countInvoices`
unchanged relative to a single registration. -/
theorem C9_register_replace (reg : Registry) (name : String) (df : DataFrame) :
    countInvoicesOp (register (register reg name df) name df) =
      countInvoicesOp (register reg name df) := by
  rw [register_register]

/-- C10: rows whose supplier is null are dropped by `groupby` — removing
them from every dataset leaves the `topSuppliers` result unchanged, and
every returned group key is a non-null supplier value occurring in the
data. -/
theorem C10_null_suppliers (n : Nat) (reg : Registry)
    (hne : reg ≠ [])
    (hcols : "fornecedor" ∈ (concatFrames (datasets reg)).cols ∧
             "valor" ∈ (concatFrames (datasets reg)).cols)
    (hkeys : ∀ c ∈ (kvPairs (concatFrames (datasets reg))).map Prod.fst,
      c = Cell.null ∨ c.isStr = true)
    (hvals : ∀ c ∈ (kvPairs (concatFrames (datasets reg))).map Prod.snd,
      c = Cell.null ∨ c.isNum = true) :
    analyzeTopSuppliers n (dropNullSuppliers reg) = analyzeTopSuppliers n reg ∧
    ∀ entries, analyzeTopSuppliers n reg = AnalysisResult.top entries →
      ∀ e ∈ entries, e.1 ≠ Cell.null ∧
        e.1 ∈ (kvPairs (concatFrames (datasets reg))).map Prod.fst := by
  have hempty : reg.isEmpty = false := by
    cases reg with
    | nil => exact absurd rfl hne
    | cons p ps => rfl
  have hempty2 : (dropNullSuppliers reg).isEmpty = false := by
    cases reg with
    | nil => exact absurd rfl hne
    | cons p ps => rfl
  have hkeys2 : ∀ c ∈ (kvPairs (concatFrames (datasets (dropNullSuppliers reg)))).map Prod.fst,
      c = Cell.null ∨ c.isStr = true := by
    intro c hc
    rw [kvPairs_dropNullSuppliers] at hc
    rcases List.mem_map.1 hc with ⟨p, hp, rfl⟩
    exact hkeys _ (List.mem_map_of_mem Prod.fst (List.mem_of_mem_filter hp))
  have hvals2 : ∀ c ∈ (kvPairs (concatFrames (datasets (dropNullSuppliers reg)))).map Prod.snd,
      c = Cell.null ∨ c.isNum = true := by
    intro c hc
    rw [kvPairs_dropNullSuppliers] at hc
    rcases List.mem_map.1 hc with ⟨p, hp, rfl⟩
    exact hvals _ (List.mem_map_of_mem Prod.snd (List.mem_of_mem_filter hp))
  have hres : analyzeTopSuppliers n reg
      = AnalysisResult.top
          (nlargest n (supplierGroups (kvPairs (concatFrames (datasets reg))))) := by
    rw [analyzeTopSuppliers, hempty]
    simp only [Bool.false_eq_true, if_false]
    rw [topSuppliersCore, if_pos hcols,
      if_neg (by rw [typed_guard_false hkeys hvals]; exact Bool.false_ne_true)]
  have hres2 : analyzeTopSuppliers n (dropNullSuppliers reg)
      = AnalysisResult.top
          (nlargest n (supplierGroups
            (kvPairs (concatFrames (datasets (dropNullSuppliers reg)))))) := by
    rw [analyzeTopSuppliers, hempty2]
    simp only [Bool.false_eq_true, if_false]
    rw [topSuppliersCore,
      if_pos (by rw [cols_dropNullSuppliers]; exact hcols),
      if_neg (by rw [typed_guard_false hkeys2 hvals2]; exact Bool.false_ne_true)]
  constructor
  · rw [hres, hres2, kvPairs_dropNullSuppliers, supplierGroups_filter_nonnull]
  · intro entries hent e he
    rw [hres] at hent
    have hent2 : entries
        = nlargest n (supplierGroups (kvPairs (concatFrames (datasets reg)))) :=
      (AnalysisResult.top.injEq _ _ ▸ hent.symm :)
    subst hent2
    have he2 : e ∈ supplierGroups (kvPairs (concatFrames (datasets reg))) :=
      (List.mem_insertionSort _).1 (List.take_subset _ _ he)
    rcases List.mem_map.1 he2 with ⟨k, hk, rfl⟩
    rcases mem_collectKeys.1 (mem_sortedKeys.1 hk) with ⟨hkn, p, hp, rfl⟩
    exact ⟨hkn, List.mem_map_of_mem Prod.fst hp⟩

/-- C10, witness: removing the null-supplier row of `regNullSup` leaves
the top-suppliers result unchanged. -/
theorem C10_null_suppliers_witness :
    analyzeTopSuppliers 3 (dropNullSuppliers regNullSup) = analyzeTopSuppliers 3 regNullSup :=
  (C10_null_suppliers 3 regNullSup (by decide) (by decide) (by decide) (by decide)).1

/-- Pre-existing frame references are unaffected by an allocation. -/
theorem frameAt_alloc {st : Store} {df : DataFrame} {r : Nat}
    (h : r < st.frames.length) :
    frameAt (alloc st df).1 r = frameAt st r := by
  simp [frameAt, alloc, List.getElem?_append_left h]

/-- Writing through one reference leaves every other reference
unchanged. -/
theorem frameAt_setFrame_ne {st : Store} {j r : Nat} {df : DataFrame}
    (h : r ≠ j) :
    frameAt (setFrame st j df) r = frameAt st r := by
  simp [frameAt, setFrame, List.getElem?_set_ne (Ne.symm h)]

/-- The top-suppliers replay keeps the registry and every pre-existing
frame intact. -/
theorem topSuppliersH_frame (topN : Nat) (s : SysState) :
    (topSuppliersH topN s).2.registry = s.registry ∧
    ∀ r < s.store.frames.length,
      frameAt (topSuppliersH topN s).2.store r = frameAt s.store r := by
  rw [topSuppliersH]
  split
  · exact ⟨rfl, fun _ _ => rfl⟩
  · exact ⟨rfl, fun r hr => frameAt_alloc hr⟩

/-- The invoice-count replay keeps the registry and every pre-existing
frame intact. -/
theorem countInvoicesH_frame (s : SysState) :
    (countInvoicesH s).2.registry = s.registry ∧
    ∀ r < s.store.frames.length,
      frameAt (countInvoicesH s).2.store r = frameAt s.store r :=
  ⟨rfl, fun _ _ => rfl⟩

/-- The mean-value replay keeps the registry and every pre-existing
frame intact. -/
theorem meanValueH_frame (s : SysState) :
    (meanValueH s).2.registry = s.registry ∧
    ∀ r < s.store.frames.length,
      frameAt (meanValueH s).2.store r = frameAt s.store r := by
  rw [meanValueH]
  split
  · exact ⟨rfl, fun _ _ => rfl⟩
  · exact ⟨rfl, fun r hr => frameAt_alloc hr⟩

/-- The temporal replay keeps the registry and every pre-existing frame
intact: the date-parsing assignment writes only to the combined copy
allocated by `pd.concat`. -/
theorem temporalH_frame (s : SysState) :
    (temporalH s).2.registry = s.registry ∧
    ∀ r < s.store.frames.length,
      frameAt (temporalH s).2.store r = frameAt s.store r := by
  rw [temporalH]
  split
  · exact ⟨rfl, fun _ _ => rfl⟩
  · dsimp only
    split
    · split
      · exact ⟨rfl, fun r hr => frameAt_alloc hr⟩
      · exact ⟨rfl, fun r hr =>
          (frameAt_setFrame_ne (Nat.ne_of_lt hr)).trans (frameAt_alloc hr)⟩
    · exact ⟨rfl, fun r hr => frameAt_alloc hr⟩

/-- C8: every local analytics operation is pure with respect to the
registry snapshot — the registry mapping is unchanged and every
registered (pre-existing) frame is bit-for-bit unchanged; in particular
the temporal analyzer's date-parsing assignment mutates only the
freshly allocated combined copy. -/
theorem C8_analytics_pure (topN : Nat) (s : SysState) :
    ((topSuppliersH topN s).2.registry = s.registry ∧
     (countInvoicesH s).2.registry = s.registry ∧
     (meanValueH s).2.registry = s.registry ∧
     (temporalH s).2.registry = s.registry) ∧
    (∀ p ∈ s.registry, p.2 < s.store.frames.length →
      frameAt (topSuppliersH topN s).2.store p.2 = frameAt s.store p.2 ∧
      frameAt (countInvoicesH s).2.store p.2 = frameAt s.store p.2 ∧
      frameAt (meanValueH s).2.store p.2 = frameAt s.store p.2 ∧
      frameAt (temporalH s).2.store p.2 = frameAt s.store p.2) := by
  refine ⟨⟨(topSuppliersH_frame topN s).1, (countInvoicesH_frame s).1,
    (meanValueH_frame s).1, (temporalH_frame s).1⟩, fun p _ hp => ?_⟩
  exact ⟨(topSuppliersH_frame topN s).2 p.2 hp, (countInvoicesH_frame s).2 p.2 hp,
    (meanValueH_frame s).2 p.2 hp, (temporalH_frame s).2 p.2 hp⟩

/-- C8, witness: on a one-frame state the temporal analyzer parses the
registered frame's dates yet leaves that frame untouched. -/
theorem C8_analytics_pure_witness :
    frameAt (temporalH sW).2.store 0 = frameAt sW.store 0 ∧
    (temporalH sW).2.registry = sW.registry :=
  ⟨(((C8_analytics_pure 3 sW).2 ("m.csv", 0) (by decide) (by decide)).2.2.2 :),
   ((C8_analytics_pure 3 sW).1.2.2.2 :)⟩

end NFAgent
